import Mathlib

/-!
Verification of the session-recorder library: a shallow embedding of the
capture pipeline (`EventCollector`, `EventHandler`), the snapshot resource
pipeline (`ResourceHelper`, `StylesheetProcessor`), the persistence adapter
(`LocalStorageAdapter`), the replay engine (`ReplayController`,
`SessionReplayer`) and the player's duration computation (`SessionPlayer`).

Timestamps are JavaScript `Date` values, represented by their millisecond
count since the Unix epoch (an `Int`).  The wire format stores timestamps as
ISO-8601 strings (`JSON.stringify` serializes a `Date` through
`Date.prototype.toISOString`, and loading revives them with `new Date(s)`).
The `JsDate` namespace models this platform encoding at the level of the
ISO-8601 fields (year, month, day, hour, minute, second, millisecond), using
the standard proleptic-Gregorian conversion between day counts and civil
dates, and proves that decoding inverts encoding.
-/

namespace JsDate

/-- Year of era (0..399) from day of era (0..146096), proleptic Gregorian
with years starting March 1 (the standard `civil_from_days` computation). -/
def yoeOf (doe : Nat) : Nat :=
  (doe - doe / 1460 + doe / 36524 - doe / 146096) / 365

/-- Day of era on which year `yoe` of the 400-year era starts. -/
def yearStart (yoe : Nat) : Nat := 365 * yoe + yoe / 4 - yoe / 100

/-- Day of era (0..146096) of an epoch day count. `719468` shifts the epoch
from 1970-01-01 to 0000-03-01; `/` on `Int` is floor division here since the
divisor is positive. -/
def doeOf (days : Int) : Nat := ((days + 719468) % 146097).toNat

/-- Era (400-year block) of an epoch day count. -/
def eraOf (days : Int) : Int := (days + 719468) / 146097

/-- Day of year (0-based from March 1) from day of era. -/
def doyOf (doe : Nat) : Nat := doe - yearStart (yoeOf doe)

/-- Shifted month index (0 = March .. 11 = February) from day of year. -/
def mpOf (doy : Nat) : Nat := (5 * doy + 2) / 153

/-- Day of month (1-based) from day of year. -/
def dayOf (doy : Nat) : Nat := doy - (153 * mpOf doy + 2) / 5 + 1

/-- Civil month (1..12) from day of year. -/
def monthOf (doy : Nat) : Nat := if mpOf doy < 10 then mpOf doy + 3 else mpOf doy - 9

/-- Epoch day count to civil date (year, month, day). -/
def civilFromDays (days : Int) : Int × Nat × Nat :=
  (eraOf days * 400 + (yoeOf (doeOf days) : Int),
   monthOf (doyOf (doeOf days)),
   dayOf (doyOf (doeOf days)))

/-- Civil date (year, month, day) to epoch day count (the standard
`days_from_civil` computation). -/
def daysFromCivil (y : Int) (m d : Nat) : Int :=
  let era : Int := y / 400
  let yoe : Nat := (y % 400).toNat
  let mp : Nat := if 2 < m then m - 3 else m + 9
  let doy : Nat := (153 * mp + 2) / 5 + d - 1
  era * 146097 + ((yearStart yoe + doy : Nat) : Int) - 719468

/-- The fields of an ISO-8601 timestamp string `YYYY-MM-DDTHH:MM:SS.mmmZ`,
the wire representation of a `Date` value. -/
structure ISODateTime where
  year : Int
  month : Nat
  day : Nat
  hour : Nat
  minute : Nat
  second : Nat
  ms : Nat
deriving DecidableEq, Repr

/-- Model of `Date.prototype.toISOString`: millisecond epoch time to ISO
fields. -/
def millisToISO (t : Int) : ISODateTime :=
  let msOfDay : Nat := (t % 86400000).toNat
  let c := civilFromDays (t / 86400000)
  { year := c.1
    month := c.2.1
    day := c.2.2
    hour := msOfDay / 3600000
    minute := msOfDay / 60000 % 60
    second := msOfDay / 1000 % 60
    ms := msOfDay % 1000 }

/-- Model of `new Date(isoString).getTime()`: ISO fields back to millisecond
epoch time. -/
def isoToMillis (iso : ISODateTime) : Int :=
  daysFromCivil iso.year iso.month iso.day * 86400000 +
    ((iso.hour * 3600000 + iso.minute * 60000 + iso.second * 1000 + iso.ms : Nat) : Int)

set_option maxHeartbeats 4000000 in
/-- Correctness of the year-of-era formula: the year it selects starts at or
before `doe`, within 365 days of it, and is one of the 400 years of the era.
Decided by splitting on the 400 possible years; within each year all
divisions are by constants, so linear integer arithmetic closes the goal. -/
lemma yoe_spec (doe : Nat) (h : doe ≤ 146096) :
    yearStart (yoeOf doe) ≤ doe ∧ doe - yearStart (yoeOf doe) ≤ 365 ∧
      yoeOf doe ≤ 399 := by
  have hb : yoeOf doe ≤ 399 := by unfold yoeOf; omega
  have key : yearStart (yoeOf doe) ≤ doe ∧ doe - yearStart (yoeOf doe) ≤ 365 := by
    revert hb
    generalize hgen : yoeOf doe = y
    intro hb
    unfold yoeOf at hgen
    unfold yearStart
    interval_cases y <;> omega
  exact ⟨key.1, key.2, hb⟩

/-- The month/day split of a day of year is invertible: recomputing the
shifted month from the civil month gives back `mpOf doy`, and recombining
month and day gives back `doy`. -/
lemma monthDay_roundtrip (doy : Nat) (h : doy ≤ 365) :
    (if 2 < monthOf doy then monthOf doy - 3 else monthOf doy + 9) = mpOf doy ∧
      (153 * mpOf doy + 2) / 5 + dayOf doy - 1 = doy := by
  unfold monthOf dayOf mpOf
  split_ifs <;> omega

/-- Converting an epoch day count to a civil date and back is the identity. -/
lemma daysFromCivil_civilFromDays (days : Int) :
    daysFromCivil (civilFromDays days).1 (civilFromDays days).2.1
      (civilFromDays days).2.2 = days := by
  have hdoe : doeOf days ≤ 146096 := by unfold doeOf; omega
  obtain ⟨h1, h2, h3⟩ := yoe_spec (doeOf days) hdoe
  have hdy : doyOf (doeOf days) ≤ 365 := h2
  obtain ⟨hmp, hdd⟩ := monthDay_roundtrip (doyOf (doeOf days)) hdy
  simp only [civilFromDays, daysFromCivil]
  rw [hmp]
  have hyoe : ((eraOf days * 400 + (yoeOf (doeOf days) : Int)) % 400).toNat =
      yoeOf (doeOf days) := by omega
  have hera : (eraOf days * 400 + (yoeOf (doeOf days) : Int)) / 400 = eraOf days := by
    omega
  rw [hyoe, hera, hdd]
  have hys : yearStart (yoeOf (doeOf days)) + doyOf (doeOf days) = doeOf days := by
    unfold doyOf at *
    omega
  rw [hys]
  unfold eraOf doeOf
  omega

/-- A millisecond timestamp round-trips through its ISO-8601 field
representation: `new Date(d.toISOString()).getTime() = d.getTime()`. -/
theorem isoToMillis_millisToISO (t : Int) : isoToMillis (millisToISO t) = t := by
  have hdays := daysFromCivil_civilFromDays (t / 86400000)
  simp only [isoToMillis, millisToISO]
  rw [hdays]
  omega

end JsDate

/-! ## Data model (src/types/events.ts)

Canonical events and recording sessions.  Event payloads other than the
timestamp are structural JSON data that the storage adapter copies verbatim
(object spread), so they are carried as an opaque `data` field; likewise the
session metadata (user id, device info, viewport, page URL/HTML) is carried
as an opaque `meta` field. -/

/-- The `EventType` enumeration. -/
inductive EventType
  | mouseMove | mouseClick | mouseScroll | keyPress | keyDown | keyUp
  | navigation | resize | custom
deriving DecidableEq, Repr

/-- A `SessionEvent`: capture-time timestamp (`Date`, as epoch milliseconds),
tag, and kind-specific payload. -/
structure SessionEvent where
  timestamp : Int
  type : EventType
  data : String
deriving DecidableEq, Repr

/-- A `RecordingSession` as held in memory (timestamps are `Date` values). -/
structure RecordingSession where
  id : String
  startTime : Int
  endTime : Int
  events : List SessionEvent
  meta : String
deriving DecidableEq, Repr

/-- A session event on the wire: the timestamp has been serialized to its
ISO-8601 textual form by `JSON.stringify`. -/
structure StoredSessionEvent where
  timestamp : JsDate.ISODateTime
  type : EventType
  data : String
deriving DecidableEq, Repr

/-- A session on the wire (inside the `localStorage` JSON blob). -/
structure StoredSession where
  id : String
  startTime : JsDate.ISODateTime
  endTime : JsDate.ISODateTime
  events : List StoredSessionEvent
  meta : String
deriving DecidableEq, Repr

/-! ## LocalStorageAdapter (src/storage/local-storage.ts)

The adapter keeps all sessions in one `localStorage` entry as a JSON array.
The store is modelled structurally as `Option (List StoredSession)`; `none`
is an absent entry (`getItem` returned `null`). `JSON.stringify` encodes
each `Date` through `toISOString`, and `prepareSessionFromStorage` revives
them with `new Date`. -/

namespace LocalStorageAdapter

/-- Serialization of one event performed by `JSON.stringify`. -/
def encodeEvent (e : SessionEvent) : StoredSessionEvent :=
  { timestamp := JsDate.millisToISO e.timestamp, type := e.type, data := e.data }

/-- Serialization of one session performed by `JSON.stringify`. -/
def encodeSession (s : RecordingSession) : StoredSession :=
  { id := s.id
    startTime := JsDate.millisToISO s.startTime
    endTime := JsDate.millisToISO s.endTime
    events := s.events.map encodeEvent
    meta := s.meta }

/-- `prepareSessionFromStorage`: spread the stored object and revive
`startTime`, `endTime` and every event timestamp with `new Date(string)`. -/
def prepareSessionFromStorage (s : StoredSession) : RecordingSession :=
  { id := s.id
    startTime := JsDate.isoToMillis s.startTime
    endTime := JsDate.isoToMillis s.endTime
    events := s.events.map fun e =>
      { timestamp := JsDate.isoToMillis e.timestamp, type := e.type, data := e.data }
    meta := s.meta }

/-- `getSession` applies `prepareSessionFromStorage` a second time to a
session whose dates are already revived; `new Date(aDate)` copies the time
value, so this pass rebuilds the same session. -/
def reviveAgain (s : RecordingSession) : RecordingSession :=
  { s with
    startTime := s.startTime
    endTime := s.endTime
    events := s.events.map fun e => { e with timestamp := e.timestamp } }

/-- `prepareSessionForStorage`: spreads the session and its events, keeping
the `Date` fields as they are (conversion to text happens in
`JSON.stringify`). -/
def prepareSessionForStorage (s : RecordingSession) : RecordingSession :=
  { s with
    startTime := s.startTime
    endTime := s.endTime
    events := s.events.map fun e => { e with timestamp := e.timestamp } }

/-- `getAllSessions`: read the JSON blob (absent entry yields `[]`) and map
`prepareSessionFromStorage` over it. -/
def getAllSessions (store : Option (List StoredSession)) : List RecordingSession :=
  match store with
  | none => []
  | some l => l.map prepareSessionFromStorage

/-- `Array.prototype.findIndex`, as an `Option Nat` (the source compares the
result with `>= 0` to distinguish the absent case). -/
def jsFindIndex (p : α → Bool) : List α → Option Nat
  | [] => none
  | x :: xs => if p x then some 0 else (jsFindIndex p xs).map (· + 1)

/-- `saveSession`: load all sessions, replace the one with a matching id (or
append), and write the JSON encoding of the array back. -/
def saveSession (store : Option (List StoredSession)) (s : RecordingSession) :
    Option (List StoredSession) :=
  let sessions := getAllSessions store
  let newSessions :=
    match jsFindIndex (fun t => t.id == s.id) sessions with
    | some i => sessions.set i (prepareSessionForStorage s)
    | none => sessions ++ [prepareSessionForStorage s]
  some (newSessions.map encodeSession)

/-- `getSession`: load all sessions, find by id, revive once more. -/
def getSession (store : Option (List StoredSession)) (id : String) :
    Option RecordingSession :=
  match (getAllSessions store).find? (fun t => t.id == id) with
  | none => none
  | some sess => some (reviveAgain sess)

lemma map_eq_self_of (f : α → α) (h : ∀ x, f x = x) : ∀ l : List α, l.map f = l
  | [] => rfl
  | x :: xs => by rw [List.map_cons, h x, map_eq_self_of f h xs]

lemma prepareSessionFromStorage_encodeSession (s : RecordingSession) :
    prepareSessionFromStorage (encodeSession s) = s := by
  cases s with
  | mk id st et evs meta =>
    simp only [prepareSessionFromStorage, encodeSession, List.map_map,
      JsDate.isoToMillis_millisToISO]
    congr 1
    exact map_eq_self_of _ (fun e => by
      simp [Function.comp, encodeEvent, JsDate.isoToMillis_millisToISO]) evs

lemma reviveAgain_eq (s : RecordingSession) : reviveAgain s = s := by
  cases s with
  | mk id st et evs meta =>
    simp only [reviveAgain]
    congr 1
    exact map_eq_self_of _ (fun e => rfl) evs

lemma prepareSessionForStorage_eq (s : RecordingSession) :
    prepareSessionForStorage s = s := by
  cases s with
  | mk id st et evs meta =>
    simp only [prepareSessionForStorage]
    congr 1
    exact map_eq_self_of _ (fun e => rfl) evs

lemma find?_set_of_jsFindIndex (p : α → Bool) (l : List α) (i : Nat) (a : α)
    (hi : jsFindIndex p l = some i) (ha : p a = true) :
    (l.set i a).find? p = some a := by
  induction l generalizing i with
  | nil => simp [jsFindIndex] at hi
  | cons x xs ih =>
    by_cases hx : p x
    · simp only [jsFindIndex, hx, if_pos] at hi
      cases hi
      simp [List.set, List.find?, ha]
    · simp only [jsFindIndex, hx, if_neg, Bool.false_eq_true, not_false_iff,
        Option.map_eq_some'] at hi
      obtain ⟨j, hj, rfl⟩ := hi
      simp only [List.set, List.find?]
      rw [Bool.not_eq_true] at hx
      rw [hx]
      exact ih j hj

lemma find?_append_single_of_jsFindIndex_none (p : α → Bool) (l : List α) (a : α)
    (hn : jsFindIndex p l = none) (ha : p a = true) :
    (l ++ [a]).find? p = some a := by
  induction l with
  | nil => simp [List.find?, ha]
  | cons x xs ih =>
    by_cases hx : p x
    · simp [jsFindIndex, hx] at hn
    · simp only [jsFindIndex, hx, if_neg, Bool.false_eq_true, not_false_iff,
        Option.map_eq_none'] at hn
      simp only [List.cons_append, List.find?]
      rw [Bool.not_eq_true] at hx
      rw [hx]
      exact ih hn

/-- Saving a session and loading it back by id recovers it exactly. -/
lemma getSession_saveSession (store : Option (List StoredSession))
    (s : RecordingSession) : getSession (saveSession store s) s.id = some s := by
  unfold getSession saveSession
  set p : RecordingSession → Bool := fun t => t.id == s.id with hp
  have hps : p s = true := by simp [hp]
  have hdecode : ∀ l : List RecordingSession,
      getAllSessions (some (l.map encodeSession)) = l := by
    intro l
    simp only [getAllSessions, List.map_map]
    calc l.map _ = l.map id :=
      List.map_congr_left fun t _ => prepareSessionFromStorage_encodeSession t
    _ = l := List.map_id l
  cases hidx : jsFindIndex p (getAllSessions store) with
  | some i =>
    simp only [hidx, hdecode]
    rw [prepareSessionForStorage_eq, find?_set_of_jsFindIndex p _ i s hidx hps]
    simp [reviveAgain_eq]
  | none =>
    simp only [hidx, hdecode]
    rw [prepareSessionForStorage_eq,
      find?_append_single_of_jsFindIndex_none p _ s hidx hps]
    simp [reviveAgain_eq]

end LocalStorageAdapter

/-- C2: for every recording session and any prior store content, saving the
session through the storage adapter and reloading it by id yields a session
with the same event count, the same sequence of event kinds, and the same
inter-event timestamp deltas: timestamps round-trip through their textual
ISO encoding. -/
theorem storage_roundtrip_preserves_events (store : Option (List StoredSession))
    (s : RecordingSession) :
    ∃ s2, LocalStorageAdapter.getSession (LocalStorageAdapter.saveSession store s)
        s.id = some s2 ∧
      s2.events.length = s.events.length ∧
      s2.events.map (fun e => e.type) = s.events.map (fun e => e.type) ∧
      s2.events.zipWith (fun a b => b.timestamp - a.timestamp) s2.events.tail =
        s.events.zipWith (fun a b => b.timestamp - a.timestamp) s.events.tail :=
  ⟨s, LocalStorageAdapter.getSession_saveSession store s, rfl, rfl, rfl⟩

/-! ## ReplayController (src/core/replayer/ReplayController.ts)

The pending `setTimeout` handle is modelled by the delay it was registered
with (`nextTimer`); its callback is always "increment the index and process
the next event", so no closure needs to be carried. -/

/-- The playback controller state. -/
structure ReplayController where
  playing : Bool
  currentIndex : Nat
  speed : ℚ
  loop : Bool
  nextTimer : Option ℚ
deriving DecidableEq, Repr

namespace ReplayController

/-- The constructor: not playing, index 0, no pending timer. -/
def init (speed : ℚ) (loop : Bool) : ReplayController :=
  { playing := false, currentIndex := 0, speed := speed, loop := loop,
    nextTimer := none }

/-- `play()` only raises the flag. -/
def play (c : ReplayController) : ReplayController := { c with playing := true }

/-- `pause()`: clear the flag and cancel any pending timer. -/
def pause (c : ReplayController) : ReplayController :=
  { c with playing := false, nextTimer := none }

/-- `stop()`: clear the flag, reset the position, cancel any pending timer. -/
def stop (c : ReplayController) : ReplayController :=
  { c with playing := false, currentIndex := 0, nextTimer := none }

/-- `complete()`: clear the flag and invoke the completion callback (an
external observer that does not touch controller state). -/
def complete (c : ReplayController) : ReplayController := { c with playing := false }

/-- `setCurrentIndex(index)`. -/
def setCurrentIndex (c : ReplayController) (i : Nat) : ReplayController :=
  { c with currentIndex := i }

/-- `incrementIndex()`. -/
def incrementIndex (c : ReplayController) : ReplayController :=
  { c with currentIndex := c.currentIndex + 1 }

/-- `setSpeed(speed)`: stores the factor with no validation. -/
def setSpeed (c : ReplayController) (speed : ℚ) : ReplayController :=
  { c with speed := speed }

/-- `reset()` delegates to `stop()`. -/
def reset (c : ReplayController) : ReplayController := c.stop

/-- `scheduleNext(callback, delayMs)`: cancel any pending timer and register
a new one. -/
def scheduleNext (c : ReplayController) (delayMs : ℚ) : ReplayController :=
  { c with nextTimer := some delayMs }

end ReplayController

/-! ## SessionReplayer (src/storage/local-storage.ts, replayer part)

Cursor overlay, iframe management and DOM event simulation are visual side
effects; the scheduling state machine is what is modelled.  Delivered events
(`options.onEvent` plus `EventProcessor.processEvent`) are returned as a
trace. -/

/-- The replayer facade: the loaded session, the controller, and the
`options.loop` flag consulted by `processNextEvent`. -/
structure SessionReplayer where
  session : Option RecordingSession
  ctrl : ReplayController
  loopOpt : Bool
deriving DecidableEq, Repr

namespace SessionReplayer

/-- `calculateDelay`: time between two events divided by the current
speed. -/
def calculateDelay (r : SessionReplayer) (currentEvent nextEvent : SessionEvent) : ℚ :=
  ((nextEvent.timestamp : ℚ) - (currentEvent.timestamp : ℚ)) / r.ctrl.speed

/-- `processNextEvent`: deliver the event at the cursor, then either schedule
the next delivery, recurse when no next event exists, or loop/complete at the
end.  The `fuel` bounds the synchronous recursion depth (`none` models a
cascade deeper than the fuel, which never happens with fuel ≥ 3); the list
collects the synchronously delivered events. -/
def processNextEvent : Nat → SessionReplayer → Option (SessionReplayer × List SessionEvent)
  | 0, _ => none
  | fuel + 1, r =>
    match r.session with
    | none => some (r, [])
    | some s =>
      if r.ctrl.playing = false then some (r, [])
      else if s.events.length ≤ r.ctrl.currentIndex then
        if r.loopOpt then
          processNextEvent fuel { r with ctrl := r.ctrl.reset }
        else
          some ({ r with ctrl := r.ctrl.complete }, [])
      else
        match s.events[r.ctrl.currentIndex]? with
        | none => some (r, [])
        | some currentEvent =>
          match s.events[r.ctrl.currentIndex + 1]? with
          | some nextEvent =>
            some ({ r with ctrl :=
              r.ctrl.scheduleNext (r.calculateDelay currentEvent nextEvent) },
              [currentEvent])
          | none =>
            match processNextEvent fuel { r with ctrl := r.ctrl.incrementIndex } with
            | none => none
            | some (r2, evs) => some (r2, currentEvent :: evs)

/-- `play()`: no-op without a session or when already playing; otherwise
raise the flag and start delivering. -/
def play (r : SessionReplayer) (fuel : Nat) : Option (SessionReplayer × List SessionEvent) :=
  match r.session with
  | none => some (r, [])
  | some _ =>
    if r.ctrl.playing then some (r, [])
    else processNextEvent fuel { r with ctrl := r.ctrl.play }

/-- `pause()`. -/
def pause (r : SessionReplayer) : SessionReplayer := { r with ctrl := r.ctrl.pause }

/-- `stop()` (cursor hiding and hover teardown are visual side effects). -/
def stop (r : SessionReplayer) : SessionReplayer := { r with ctrl := r.ctrl.stop }

/-- `setSpeed(speed)` forwards to the controller. -/
def setSpeed (r : SessionReplayer) (speed : ℚ) : SessionReplayer :=
  { r with ctrl := r.ctrl.setSpeed speed }

/-- The loop body of `findClosestEventIndex`: `index` is the last position
whose timestamp was ≤ the target, `i` the position being examined; the scan
breaks at the first timestamp beyond the target. -/
def findClosestFrom (targetTime : Int) : List SessionEvent → Nat → Nat → Nat
  | [], _, index => index
  | e :: rest, i, index =>
    if e.timestamp ≤ targetTime then findClosestFrom targetTime rest (i + 1) i
    else index

/-- `findClosestEventIndex(targetTime)`. -/
def findClosestEventIndex (r : SessionReplayer) (targetTime : Int) : Nat :=
  match r.session with
  | none => 0
  | some s => findClosestFrom targetTime s.events 0 0

/-- `seekTo(timeInMs)`: remember the play state, stop, recompute the cursor
from the absolute target time, and resume if it was playing. -/
def seekTo (r : SessionReplayer) (fuel : Nat) (timeInMs : Int) :
    Option (SessionReplayer × List SessionEvent) :=
  match r.session with
  | none => some (r, [])
  | some s =>
    let wasPlaying := r.ctrl.playing
    let r1 := r.stop
    let eventIndex := r1.findClosestEventIndex (s.startTime + timeInMs)
    let r2 := { r1 with ctrl := r1.ctrl.setCurrentIndex eventIndex }
    if wasPlaying then r2.play fuel else some (r2, [])

/-- A registered timer fires: the runtime discards the handle, then the
callback increments the index and processes the next event. -/
def fireTimer (r : SessionReplayer) (fuel : Nat) : Option (SessionReplayer × List SessionEvent) :=
  processNextEvent fuel
    { r with ctrl :=
      { r.ctrl with nextTimer := none, currentIndex := r.ctrl.currentIndex + 1 } }

/-- Run the event loop: repeatedly fire the pending timer, stamping each
delivered event with the absolute time at which its timer fired. -/
def drive : Nat → ℚ → SessionReplayer → Option (SessionReplayer × List (ℚ × SessionEvent))
  | 0, _, r =>
    match r.ctrl.nextTimer with
    | none => some (r, [])
    | some _ => none
  | n + 1, now, r =>
    match r.ctrl.nextTimer with
    | none => some (r, [])
    | some d =>
      match r.fireTimer (n + 1) with
      | none => none
      | some (r2, evs) =>
        match drive n (now + d) r2 with
        | none => none
        | some (r3, rest) => some (r3, evs.map (fun e => (now + d, e)) ++ rest)

/-- `play()` at time 0 followed by the full event loop: the complete delivery
schedule of one playback. -/
def playAndRun (r : SessionReplayer) (fuel : Nat) :
    Option (SessionReplayer × List (ℚ × SessionEvent)) :=
  match r.play fuel with
  | none => none
  | some (r1, evs) =>
    match drive fuel 0 r1 with
    | none => none
    | some (r2, rest) => some (r2, evs.map (fun e => ((0 : ℚ), e)) ++ rest)

end SessionReplayer

/-- Helper: when the cursor has both a current and a next event,
`processNextEvent` delivers the current event and schedules the next delivery
with delay `(next - current) / speed`. -/
lemma processNextEvent_schedules (r : SessionReplayer) (s : RecordingSession)
    (fuel : Nat) (currentEvent nextEvent : SessionEvent)
    (hs : r.session = some s) (hp : r.ctrl.playing = true)
    (hcur : s.events[r.ctrl.currentIndex]? = some currentEvent)
    (hnext : s.events[r.ctrl.currentIndex + 1]? = some nextEvent) :
    SessionReplayer.processNextEvent (fuel + 1) r =
      some ({ r with ctrl :=
        r.ctrl.scheduleNext (r.calculateDelay currentEvent nextEvent) },
        [currentEvent]) := by
  have hlt : r.ctrl.currentIndex < s.events.length := by
    rcases List.getElem?_eq_some.mp hcur with ⟨h, _⟩
    exact h
  simp only [SessionReplayer.processNextEvent, hs, hp, hcur, hnext]
  rw [if_neg (by simp), if_neg (by omega)]

/-- The navigation event of the replay-timing scenario (offset 0 ms). -/
def demoNavigation : SessionEvent :=
  { timestamp := 0, type := EventType.navigation, data := "nav" }

/-- The click event of the replay-timing scenario (offset 500 ms). -/
def demoClick : SessionEvent :=
  { timestamp := 500, type := EventType.mouseClick, data := "click 10 10" }

/-- The mouse-move event of the replay-timing scenario (offset 1500 ms). -/
def demoMove : SessionEvent :=
  { timestamp := 1500, type := EventType.mouseMove, data := "move 20 20" }

/-- The scenario session: events at 0 ms, 500 ms and 1500 ms. -/
def demoSession : RecordingSession :=
  { id := "demo", startTime := 0, endTime := 1500,
    events := [demoNavigation, demoClick, demoMove], meta := "" }

/-- The scenario replayer: the demo session loaded at speed 2. -/
def demoReplayer : SessionReplayer :=
  { session := some demoSession, ctrl := ReplayController.init 2 false,
    loopOpt := false }

set_option maxHeartbeats 2000000 in
/-- C1: after delivering the event at cursor index `i`, the delay scheduled
before delivering event `i+1` is `(timestamp(i+1) - timestamp(i)) / speed`;
in particular the 0/500/1500 ms demo session replayed at speed 2 delivers its
events at 0, 250 and 750 ms after play starts. -/
theorem replay_delay_schedule :
    (∀ (r : SessionReplayer) (s : RecordingSession) (fuel : Nat)
        (currentEvent nextEvent : SessionEvent),
      r.session = some s → r.ctrl.playing = true →
      s.events[r.ctrl.currentIndex]? = some currentEvent →
      s.events[r.ctrl.currentIndex + 1]? = some nextEvent →
      SessionReplayer.processNextEvent (fuel + 1) r =
        some ({ r with ctrl := (r.ctrl.scheduleNext
          (((nextEvent.timestamp : ℚ) - (currentEvent.timestamp : ℚ)) / r.ctrl.speed)) },
          [currentEvent])) ∧
    demoReplayer.playAndRun 4 =
      some ({ demoReplayer with
                ctrl := ({ playing := false, currentIndex := 3, speed := 2,
                           loop := false, nextTimer := none }) },
        [((0 : ℚ), demoNavigation), ((250 : ℚ), demoClick), ((750 : ℚ), demoMove)]) := by
  constructor
  · intro r s fuel currentEvent nextEvent hs hp hcur hnext
    exact processNextEvent_schedules r s fuel currentEvent nextEvent hs hp hcur hnext
  · simp +decide only [SessionReplayer.playAndRun, SessionReplayer.play,
      SessionReplayer.processNextEvent, SessionReplayer.drive,
      SessionReplayer.fireTimer, SessionReplayer.calculateDelay,
      ReplayController.play, ReplayController.scheduleNext,
      ReplayController.complete, ReplayController.incrementIndex,
      ReplayController.init, demoReplayer, demoSession, demoNavigation,
      demoClick, demoMove, List.getElem?_cons_zero, List.getElem?_cons_succ,
      List.length_cons, List.length_nil, List.map_cons, List.map_nil,
      List.cons_append, List.nil_append]
    norm_num

/-- Witness for the hypotheses of the first part of `replay_delay_schedule`:
with the demo session loaded, playing, cursor at 0, the scheduled delay is
`(500 - 0) / 2 = 250` ms. -/
theorem replay_delay_schedule_witness :
    SessionReplayer.processNextEvent 4
      { session := some demoSession,
        ctrl := ({ playing := true, currentIndex := 0, speed := 2,
                   loop := false, nextTimer := none }),
        loopOpt := false } =
      some ({ session := some demoSession,
              ctrl := ({ playing := true, currentIndex := 0, speed := 2,
                         loop := false, nextTimer := some 250 }),
              loopOpt := false }, [demoNavigation]) := by
  have h := replay_delay_schedule.1
    { session := some demoSession,
      ctrl := ({ playing := true, currentIndex := 0, speed := 2,
                 loop := false, nextTimer := none }),
      loopOpt := false }
    demoSession 3 demoNavigation demoClick rfl rfl (by decide) (by decide)
  rw [h]
  norm_num [SessionReplayer.calculateDelay, ReplayController.scheduleNext,
    demoSession, demoNavigation, demoClick]

/-- The loop of `findClosestEventIndex` computes, in terms of `takeWhile`:
when the first element is within the target it returns the absolute position
of the last element of the maximal within-target prefix, otherwise the
accumulator. -/
lemma findClosestFrom_eq_takeWhile (t : Int) :
    ∀ (l : List SessionEvent) (i idx : Nat),
      SessionReplayer.findClosestFrom t l i idx =
        if (l.takeWhile (fun e => decide (e.timestamp ≤ t))).length = 0 then idx
        else i + (l.takeWhile (fun e => decide (e.timestamp ≤ t))).length - 1 := by
  intro l
  induction l with
  | nil => intro i idx; simp [SessionReplayer.findClosestFrom]
  | cons e rest ih =>
    intro i idx
    by_cases he : e.timestamp ≤ t
    · rw [SessionReplayer.findClosestFrom, if_pos he, ih (i + 1) i]
      simp only [List.takeWhile_cons, decide_eq_true he, if_true, List.length_cons,
        Nat.succ_ne_zero, if_false]
      split_ifs with h1 <;> omega
    · rw [SessionReplayer.findClosestFrom, if_neg he]
      simp [List.takeWhile_cons, he]

/-- The element just beyond the `takeWhile` prefix fails the predicate. -/
lemma getElem?_takeWhile_length (p : α → Bool) :
    ∀ (l : List α), (l.takeWhile p).length < l.length →
      ∃ x, l[(l.takeWhile p).length]? = some x ∧ p x = false := by
  intro l
  induction l with
  | nil => intro h; simp at h
  | cons a rest ih =>
    intro h
    by_cases ha : p a
    · simp only [List.takeWhile_cons, ha, if_true, List.length_cons] at h ⊢
      have := ih (by omega)
      simpa using this
    · refine ⟨a, ?_, by simpa using ha⟩
      simp [List.takeWhile_cons, ha]

/-- With events sorted by timestamp and at least one event at or before the
target, `findClosestEventIndex`'s loop returns the highest index whose
timestamp is at or before the target. -/
lemma findClosestFrom_max (events : List SessionEvent) (t : Int)
    (hsorted : events.Pairwise fun a b => a.timestamp ≤ b.timestamp)
    (hex : ∃ e0, events.head? = some e0 ∧ e0.timestamp ≤ t) :
    (∃ e, events[SessionReplayer.findClosestFrom t events 0 0]? = some e ∧
      e.timestamp ≤ t) ∧
    ∀ j e, events[j]? = some e → e.timestamp ≤ t →
      j ≤ SessionReplayer.findClosestFrom t events 0 0 := by
  obtain ⟨e0, he0, ht0⟩ := hex
  have hlen : (events.takeWhile (fun e => decide (e.timestamp ≤ t))).length ≠ 0 := by
    cases events with
    | nil => simp at he0
    | cons a rest =>
      have ha : a = e0 := by simpa using he0
      subst ha
      simp [List.takeWhile_cons, decide_eq_true ht0]
  have hfc : SessionReplayer.findClosestFrom t events 0 0 =
      (events.takeWhile (fun e => decide (e.timestamp ≤ t))).length - 1 := by
    rw [findClosestFrom_eq_takeWhile, if_neg hlen]
    omega
  have hpref : events.takeWhile (fun e => decide (e.timestamp ≤ t)) <+: events :=
    List.takeWhile_prefix _
  have htwlen : (events.takeWhile (fun e => decide (e.timestamp ≤ t))).length ≤
      events.length := hpref.length_le
  have hidx : (events.takeWhile (fun e => decide (e.timestamp ≤ t))).length - 1 <
      (events.takeWhile (fun e => decide (e.timestamp ≤ t))).length := by omega
  constructor
  · have h2 : (events.takeWhile (fun e => decide (e.timestamp ≤ t))).length - 1 <
        events.length := lt_of_lt_of_le hidx htwlen
    have hEq : (events.takeWhile (fun e => decide (e.timestamp ≤ t))).get
        ⟨(events.takeWhile (fun e => decide (e.timestamp ≤ t))).length - 1, hidx⟩ =
        events.get ⟨(events.takeWhile (fun e => decide (e.timestamp ≤ t))).length - 1,
          h2⟩ := by
      simpa [List.get_eq_getElem] using hpref.getElem hidx
    refine ⟨events.get ⟨(events.takeWhile (fun e => decide (e.timestamp ≤ t))).length - 1,
      h2⟩, ?_, ?_⟩
    · rw [hfc]
      simp [List.get_eq_getElem]
    · rw [← hEq]
      have hmem := List.get_mem (events.takeWhile (fun e => decide (e.timestamp ≤ t)))
        ((events.takeWhile (fun e => decide (e.timestamp ≤ t))).length - 1) hidx
      have hpp := List.mem_takeWhile_imp
        (p := fun (e : SessionEvent) => decide (e.timestamp ≤ t)) hmem
      simpa using hpp
  · intro j e hj he
    rw [hfc]
    by_contra hcon
    push_neg at hcon
    have hjge : (events.takeWhile (fun e => decide (e.timestamp ≤ t))).length ≤ j := by
      omega
    have hjlen : j < events.length := (List.getElem?_eq_some.mp hj).1
    have hlt : (events.takeWhile (fun e => decide (e.timestamp ≤ t))).length <
        events.length := by omega
    obtain ⟨x, hx, hpx⟩ := getElem?_takeWhile_length _ events hlt
    have hxts : ¬ x.timestamp ≤ t := by simpa using hpx
    by_cases hje : j = (events.takeWhile (fun e => decide (e.timestamp ≤ t))).length
    · rw [hje] at hj
      rw [hj] at hx
      cases hx
      exact hxts he
    · have hjgt : (events.takeWhile (fun e => decide (e.timestamp ≤ t))).length < j := by
        omega
      have hpw := List.pairwise_iff_getElem.mp hsorted _ j hlt hjlen hjgt
      have hxe : events[(events.takeWhile (fun e => decide (e.timestamp ≤ t))).length] = x := by
        rw [List.getElem?_eq_getElem hlt] at hx
        cases hx
        rfl
      have hee : events[j] = e := by
        rw [List.getElem?_eq_getElem hjlen] at hj
        cases hj
        rfl
      rw [hxe, hee] at hpw
      exact hxts (le_trans hpw he)

/-- C3: seeking positions the cursor at the highest event index whose
timestamp offset from session start is at most `timeInMs` and restores the
play/pause state in force before the seek; when it was playing, delivery
resumes at the new cursor (the hypothesis that a later event exists rules out
the instant-completion corner). -/
theorem seekTo_cursor_and_state (r : SessionReplayer) (s : RecordingSession)
    (timeInMs : Int) (fuel : Nat)
    (hs : r.session = some s)
    (hsorted : s.events.Pairwise fun a b => a.timestamp ≤ b.timestamp)
    (hex : ∃ e0, s.events.head? = some e0 ∧ e0.timestamp ≤ s.startTime + timeInMs)
    (hnl : r.ctrl.playing = true →
      r.findClosestEventIndex (s.startTime + timeInMs) + 1 < s.events.length) :
    ∃ r2 delivered, r.seekTo (fuel + 1) timeInMs = some (r2, delivered) ∧
      r2.ctrl.currentIndex = r.findClosestEventIndex (s.startTime + timeInMs) ∧
      (∃ e, s.events[r2.ctrl.currentIndex]? = some e ∧
        e.timestamp ≤ s.startTime + timeInMs) ∧
      (∀ j e, s.events[j]? = some e → e.timestamp ≤ s.startTime + timeInMs →
        j ≤ r2.ctrl.currentIndex) ∧
      r2.ctrl.playing = r.ctrl.playing ∧
      (r.ctrl.playing = true →
        ∃ e, s.events[r2.ctrl.currentIndex]? = some e ∧ delivered = [e]) ∧
      (r.ctrl.playing = false → delivered = []) := by
  obtain ⟨hA, hB⟩ := findClosestFrom_max s.events (s.startTime + timeInMs) hsorted hex
  have hidx_def : r.findClosestEventIndex (s.startTime + timeInMs) =
      SessionReplayer.findClosestFrom (s.startTime + timeInMs) s.events 0 0 := by
    simp [SessionReplayer.findClosestEventIndex, hs]
  set idx := SessionReplayer.findClosestFrom (s.startTime + timeInMs) s.events 0 0
    with hidxeq
  cases hw : r.ctrl.playing with
  | false =>
    have hrun : r.seekTo (fuel + 1) timeInMs =
        some ({ r with ctrl := ⟨false, idx, r.ctrl.speed, r.ctrl.loop, none⟩ }, []) := by
      simp only [SessionReplayer.seekTo, hs, SessionReplayer.stop,
        ReplayController.stop, SessionReplayer.findClosestEventIndex,
        ReplayController.setCurrentIndex, hw, Bool.false_eq_true, if_false,
        hidxeq]
    refine ⟨_, _, hrun, ?_, ?_, ?_, ?_, ?_, ?_⟩
    · simpa using hidx_def.symm
    · simpa using hA
    · simpa using hB
    · rfl
    · intro hcon; simp at hcon
    · intro _; rfl
  | true =>
    obtain ⟨cur, hcur, hcurts⟩ := hA
    have hlt2 : idx + 1 < s.events.length := by
      have := hnl hw
      rwa [hidx_def] at this
    have hnext : s.events[idx + 1]? =
        some (s.events.get ⟨idx + 1, hlt2⟩) := by
      simp [List.get_eq_getElem]
    have hstep := processNextEvent_schedules
      { session := some s, ctrl := ⟨true, idx, r.ctrl.speed, r.ctrl.loop, none⟩,
        loopOpt := r.loopOpt } s fuel cur
      (s.events.get ⟨idx + 1, hlt2⟩) rfl rfl hcur hnext
    have hrun : r.seekTo (fuel + 1) timeInMs =
        SessionReplayer.processNextEvent (fuel + 1)
          { session := some s, ctrl := ⟨true, idx, r.ctrl.speed, r.ctrl.loop, none⟩,
            loopOpt := r.loopOpt } := by
      simp only [SessionReplayer.seekTo, hs, SessionReplayer.stop,
        ReplayController.stop, SessionReplayer.findClosestEventIndex,
        ReplayController.setCurrentIndex, hw, if_true, SessionReplayer.play,
        ReplayController.play, hidxeq, Bool.false_eq_true, if_false]
    rw [hstep] at hrun
    refine ⟨_, _, hrun, ?_, ?_, ?_, ?_, ?_, ?_⟩
    · simpa [ReplayController.scheduleNext] using hidx_def.symm
    · refine ⟨cur, ?_, hcurts⟩
      simpa [ReplayController.scheduleNext] using hcur
    · intro j e hj he
      have := hB j e hj he
      simpa [ReplayController.scheduleNext] using this
    · simp [ReplayController.scheduleNext, hw]
    · intro _
      refine ⟨cur, ?_, rfl⟩
      simpa [ReplayController.scheduleNext] using hcur
    · intro hcon; simp at hcon

/-- Witness for `seekTo_cursor_and_state`: seeking the paused demo replayer
to 600 ms lands the cursor on the click event (index 1), the highest index at
or before 600 ms, and stays paused. -/
theorem seekTo_cursor_and_state_witness :
    ∃ r2 delivered, demoReplayer.seekTo 2 600 = some (r2, delivered) ∧
      r2.ctrl.currentIndex =
        demoReplayer.findClosestEventIndex (demoSession.startTime + 600) ∧
      (∃ e, demoSession.events[r2.ctrl.currentIndex]? = some e ∧
        e.timestamp ≤ demoSession.startTime + 600) ∧
      (∀ j e, demoSession.events[j]? = some e →
        e.timestamp ≤ demoSession.startTime + 600 → j ≤ r2.ctrl.currentIndex) ∧
      r2.ctrl.playing = demoReplayer.ctrl.playing ∧
      (demoReplayer.ctrl.playing = true →
        ∃ e, demoSession.events[r2.ctrl.currentIndex]? = some e ∧ delivered = [e]) ∧
      (demoReplayer.ctrl.playing = false → delivered = []) :=
  seekTo_cursor_and_state demoReplayer demoSession 600 1 rfl (by decide)
    ⟨demoNavigation, rfl, by decide⟩ (fun h => nomatch h)

/-- C7 counterexample: `setSpeed` stores an arbitrary factor without
validation, so a single call with factor 0 moves a controller whose speed is
positive into a reachable state whose speed is not. -/
theorem setSpeed_zero_breaks_invariant :
    0 < (ReplayController.init 1 false).speed ∧
    ¬ 0 < ((ReplayController.init 1 false).setSpeed 0).speed := by
  constructor
  · norm_num [ReplayController.init]
  · norm_num [ReplayController.init, ReplayController.setSpeed]

/-- The scheduler operations of `ReplayController`. -/
inductive ReplayOp
  | play | pause | stop | complete | reset | incrementIndex
  | setCurrentIndex (i : Nat)
  | scheduleNext (d : ℚ)
  | setSpeed (f : ℚ)

/-- Apply one controller operation. -/
def applyOp (c : ReplayController) : ReplayOp → ReplayController
  | .play => c.play
  | .pause => c.pause
  | .stop => c.stop
  | .complete => c.complete
  | .reset => c.reset
  | .incrementIndex => c.incrementIndex
  | .setCurrentIndex i => c.setCurrentIndex i
  | .scheduleNext d => c.scheduleNext d
  | .setSpeed f => c.setSpeed f

/-- C7 amended: the speed stays positive along every operation sequence in
which each `setSpeed` call passes a positive factor; `setSpeed` itself stores
its argument unvalidated, so this side condition is what the code actually
guarantees. -/
theorem speed_positive_of_setSpeed_positive (c0 : ReplayController)
    (h0 : 0 < c0.speed) (ops : List ReplayOp)
    (hops : ∀ op ∈ ops, ∀ f, op = ReplayOp.setSpeed f → 0 < f) :
    0 < (ops.foldl applyOp c0).speed := by
  induction ops generalizing c0 with
  | nil => exact h0
  | cons op rest ih =>
    rw [List.foldl_cons]
    refine ih (applyOp c0 op) ?_ ?_
    · cases op with
      | setSpeed f =>
        exact hops _ (List.mem_cons_self _ _) f rfl
      | play => exact h0
      | pause => exact h0
      | stop => exact h0
      | complete => exact h0
      | reset => exact h0
      | incrementIndex => exact h0
      | setCurrentIndex i => exact h0
      | scheduleNext d => exact h0
    · intro op' hmem f hf
      exact hops op' (List.mem_cons_of_mem _ hmem) f hf

/-- Witness for `speed_positive_of_setSpeed_positive`: a concrete run whose
only `setSpeed` factor is 2 keeps the speed positive. -/
theorem speed_positive_of_setSpeed_positive_witness :
    0 < (([ReplayOp.play, ReplayOp.setSpeed 2, ReplayOp.pause].foldl applyOp
      (ReplayController.init 1 false)).speed) := by
  refine speed_positive_of_setSpeed_positive (ReplayController.init 1 false)
    (by norm_num [ReplayController.init]) _ ?_
  intro op hop f hf
  subst hf
  simp only [List.mem_cons, List.not_mem_nil, or_false] at hop
  rcases hop with h | h | h
  · cases h
  · injection h with h1
    subst h1
    norm_num
  · cases h

/-- C8: `setSpeed` changes only the stored speed, so a pending timer keeps
its originally computed delay (it is neither cancelled nor recomputed), while
every delay computed after the call divides by the new factor. -/
theorem setSpeed_only_affects_future_delays (r : SessionReplayer) (f d : ℚ)
    (currentEvent nextEvent : SessionEvent) :
    (r.setSpeed f).ctrl.nextTimer = r.ctrl.nextTimer ∧
    (r.setSpeed f).ctrl.playing = r.ctrl.playing ∧
    (r.setSpeed f).ctrl.currentIndex = r.ctrl.currentIndex ∧
    (r.setSpeed f).session = r.session ∧
    (({ r with ctrl := r.ctrl.scheduleNext d } : SessionReplayer).setSpeed f).ctrl.nextTimer
      = some d ∧
    (r.setSpeed f).calculateDelay currentEvent nextEvent =
      ((nextEvent.timestamp : ℚ) - (currentEvent.timestamp : ℚ)) / f :=
  ⟨rfl, rfl, rfl, rfl, rfl, rfl⟩

/-! ## Capture pipeline: EventCollector and EventHandler
(src/core/recorder/EventCollector.ts, src/core/recorder/EventHandler.ts)

DOM elements are modelled structurally: an element carries the identifying
attributes that `getElementInfo` reads and the two selector sets that
`shouldExcludeElement` queries (`matches` and `closest`).  Timer-based
throttling is modelled with an explicit clock: the timer registered by
`throttle` at time `t0` with window `W` is the entry `(eventType, t0 + W)`,
and a timer whose expiry is at or before the current instant has already
fired (deleting its entry) when the next signal is handled. -/

/-- An element as seen by the capture pipeline. -/
structure TargetElement where
  tagName : String
  inputType : Option String
  elemId : String
  className : String
  cssPath : String
  matchedSelectors : List String
  closestSelectors : List String
deriving DecidableEq, Repr

/-- The `ElementInfo` record produced by `getElementInfo`. -/
structure ElementInfo where
  tagName : String
  id : Option String
  className : Option String
  path : Option String
deriving DecidableEq, Repr

/-- The collector state: configured exclusion selectors and the active
throttle timers (event type ↦ expiry instant). -/
structure EventCollector where
  excludeElements : List String
  throttleTimers : List (String × Int)
deriving DecidableEq, Repr

namespace EventCollector

/-- `shouldExcludeElement`: some configured selector matches the element or
one of its ancestors. -/
def shouldExcludeElement (c : EventCollector) (el : TargetElement) : Bool :=
  c.excludeElements.any fun sel =>
    el.matchedSelectors.contains sel || el.closestSelectors.contains sel

/-- `getElementInfo`: lower-case tag plus id, class and CSS path, each
`undefined` (here `none`) when empty. -/
def getElementInfo (el : TargetElement) : ElementInfo :=
  { tagName := el.tagName.toLower
    id := if el.elemId = "" then none else some el.elemId
    className := if el.className = "" then none else some el.className
    path := if el.cssPath = "" then none else some el.cssPath }

/-- Timers due at or before `now` have fired (each deletes its own entry)
before the handler for a signal arriving at `now` runs. -/
def expireTimers (c : EventCollector) (now : Int) : EventCollector :=
  { c with throttleTimers := c.throttleTimers.filter fun p => now < p.2 }

/-- `throttle(eventType, duration)` at instant `now`: a signal passes only
when no timer for its event type is active, and registers a timer that will
clear itself after `duration`. -/
def throttle (c : EventCollector) (now : Int) (eventType : String)
    (duration : Int) : Bool × EventCollector :=
  if (c.throttleTimers.lookup eventType).isSome then (false, c)
  else (true, { c with throttleTimers := (eventType, now + duration) :: c.throttleTimers })

end EventCollector

/-- Modifier-key state recorded with keyboard events. -/
structure Modifiers where
  ctrl : Bool
  alt : Bool
  shift : Bool
  meta : Bool
deriving DecidableEq, Repr

/-- The `KeyboardEventData` payload. -/
structure KeyboardEventData where
  key : String
  keyCode : Int
  modifiers : Modifiers
  target : Option ElementInfo
deriving DecidableEq, Repr

/-- The `MouseEventData` payload (fields not set by `handleMouseMove` stay
absent). -/
structure MouseEventData where
  x : Int
  y : Int
  target : Option ElementInfo
deriving DecidableEq, Repr

/-- A raw `mousemove` signal: arrival instant, coordinates, target. -/
structure MouseMoveSignal where
  time : Int
  x : Int
  y : Int
  target : Option TargetElement
deriving DecidableEq, Repr

/-- A raw `keydown` signal. -/
structure KeySignal where
  key : String
  keyCode : Int
  ctrlKey : Bool
  altKey : Bool
  shiftKey : Bool
  metaKey : Bool
deriving DecidableEq, Repr

/-- The capture options read by the handlers. -/
structure EventHandlerOptions where
  captureMouseMove : Bool
  throttleMouseMove : Int
deriving DecidableEq, Repr

namespace EventHandler

/-- `handleMouseMove`: throttle first, then drop excluded targets, else emit
the canonical `MOUSE_MOVE` event. -/
def handleMouseMove (opts : EventHandlerOptions) (c : EventCollector)
    (sig : MouseMoveSignal) : EventCollector × Option (EventType × MouseEventData) :=
  let c0 := c.expireTimers sig.time
  match c0.throttle sig.time "mousemove" opts.throttleMouseMove with
  | (false, c1) => (c1, none)
  | (true, c1) =>
    match sig.target with
    | some el =>
      if c1.shouldExcludeElement el then (c1, none)
      else (c1, some (EventType.mouseMove,
        { x := sig.x, y := sig.y, target := some (EventCollector.getElementInfo el) }))
    | none =>
      (c1, some (EventType.mouseMove, { x := sig.x, y := sig.y, target := none }))

/-- Handle a whole sequence of `mousemove` signals, collecting the emitted
canonical events. -/
def runMouseMoves (opts : EventHandlerOptions) (c : EventCollector) :
    List MouseMoveSignal → EventCollector × List (EventType × MouseEventData)
  | [] => (c, [])
  | sig :: rest =>
    match handleMouseMove opts c sig with
    | (c1, none) =>
      runMouseMoves opts c1 rest
    | (c1, some ev) =>
      let r := runMouseMoves opts c1 rest
      (r.1, ev :: r.2)

/-- `handleKeyDown`: drop excluded targets; on a password input record the
redacted placeholder key `*` with keyCode 0; otherwise record the real key. -/
def handleKeyDown (c : EventCollector) (target : TargetElement) (e : KeySignal) :
    Option (EventType × KeyboardEventData) :=
  if c.shouldExcludeElement target then none
  else if target.tagName = "INPUT" ∧ target.inputType = some "password" then
    some (EventType.keyDown,
      { key := "*", keyCode := 0,
        modifiers := ⟨e.ctrlKey, e.altKey, e.shiftKey, e.metaKey⟩,
        target := some (EventCollector.getElementInfo target) })
  else
    some (EventType.keyDown,
      { key := e.key, keyCode := e.keyCode,
        modifiers := ⟨e.ctrlKey, e.altKey, e.shiftKey, e.metaKey⟩,
        target := some (EventCollector.getElementInfo target) })

end EventHandler

/-- The emission decision of `handleMouseMove` for a signal that passed the
throttle gate: dropped when the target is excluded, else the canonical
`MOUSE_MOVE` event. -/
def emitOf (excl : List String) (sig : MouseMoveSignal) :
    Option (EventType × MouseEventData) :=
  match sig.target with
  | some el =>
    if EventCollector.shouldExcludeElement ⟨excl, []⟩ el then none
    else some (EventType.mouseMove,
      { x := sig.x, y := sig.y, target := some (EventCollector.getElementInfo el) })
  | none => some (EventType.mouseMove, { x := sig.x, y := sig.y, target := none })

/-- Reference throttle gate: a signal passes exactly when no window is open
(`none`) or the open window has elapsed; a passing signal opens a window of
length `W` from its own arrival instant. -/
def greedySelect (W : Int) : Option Int → List MouseMoveSignal → List MouseMoveSignal
  | _, [] => []
  | none, sig :: rest => sig :: greedySelect W (some (sig.time + W)) rest
  | some ex, sig :: rest =>
    if sig.time < ex then greedySelect W (some ex) rest
    else sig :: greedySelect W (some (sig.time + W)) rest

/-- The collector's timer map corresponding to a throttle-gate state. -/
def timersOf : Option Int → List (String × Int)
  | none => []
  | some ex => [("mousemove", ex)]

/-- The mousemove pipeline equals the reference gate composed with the
per-signal emission decision. -/
lemma runMouseMoves_eq_greedy (opts : EventHandlerOptions) (excl : List String) :
    ∀ (sigs : List MouseMoveSignal) (ex? : Option Int),
      (EventHandler.runMouseMoves opts ⟨excl, timersOf ex?⟩ sigs).2 =
        (greedySelect opts.throttleMouseMove ex? sigs).filterMap (emitOf excl) := by
  intro sigs
  induction sigs with
  | nil => intro ex?; simp [EventHandler.runMouseMoves, greedySelect]
  | cons sig rest ih =>
    intro ex?
    have hpass : ∀ (hyp : (timersOf ex?).filter
          (fun p => decide (sig.time < p.2)) = []),
        (EventHandler.runMouseMoves opts ⟨excl, timersOf ex?⟩ (sig :: rest)).2 =
          (emitOf excl sig).toList ++
            (greedySelect opts.throttleMouseMove
              (some (sig.time + opts.throttleMouseMove)) rest).filterMap (emitOf excl) := by
      intro hyp
      rw [EventHandler.runMouseMoves]
      rw [show EventHandler.handleMouseMove opts ⟨excl, timersOf ex?⟩ sig =
        (⟨excl, [("mousemove", sig.time + opts.throttleMouseMove)]⟩, emitOf excl sig) from ?side]
      case side =>
        rw [EventHandler.handleMouseMove]
        simp only [EventCollector.expireTimers, hyp]
        rw [EventCollector.throttle]
        simp only [List.lookup_nil, Option.isSome_none, Bool.false_eq_true, if_false]
        cases htgt : sig.target with
        | none => simp [emitOf, htgt]
        | some el =>
          simp only [emitOf, htgt]
          have hsame : EventCollector.shouldExcludeElement
              ⟨excl, [("mousemove", sig.time + opts.throttleMouseMove)]⟩ el =
              EventCollector.shouldExcludeElement ⟨excl, []⟩ el := rfl
          by_cases hx : EventCollector.shouldExcludeElement ⟨excl, []⟩ el = true
          · simp [hsame, hx]
          · simp only [Bool.not_eq_true] at hx
            simp [hsame, hx]
      have := ih (some (sig.time + opts.throttleMouseMove))
      simp only [timersOf] at this
      cases hem : emitOf excl sig with
      | none => simp [hem, this, Option.toList]
      | some ev => simp [hem, this, Option.toList]
    cases ex? with
    | none =>
      have h := hpass (by simp [timersOf])
      rw [h]
      simp only [greedySelect]
      cases hem : emitOf excl sig <;> simp [hem, Option.toList, List.filterMap_cons]
    | some ex =>
      by_cases hlt : sig.time < ex
      · have hkeep : (timersOf (some ex)).filter (fun p => decide (sig.time < p.2)) =
            timersOf (some ex) := by
          simp [timersOf, hlt]
        rw [EventHandler.runMouseMoves]
        rw [show EventHandler.handleMouseMove opts ⟨excl, timersOf (some ex)⟩ sig =
          (⟨excl, timersOf (some ex)⟩, none) from ?side2]
        case side2 =>
          rw [EventHandler.handleMouseMove]
          simp only [EventCollector.expireTimers, hkeep]
          rw [EventCollector.throttle]
          simp [timersOf, List.lookup]
        rw [ih (some ex)]
        simp [greedySelect, hlt]
      · have h := hpass (by simp [timersOf]; omega)
        rw [h]
        simp only [greedySelect, if_neg hlt]
        cases hem : emitOf excl sig <;> simp [hem, Option.toList, List.filterMap_cons]

/-- Every signal of a burst confined to the window opened by its first signal
is dropped by the reference gate. -/
lemma greedySelect_drop_all (W : Int) :
    ∀ (l : List MouseMoveSignal) (ex : Int), (∀ s ∈ l, s.time < ex) →
      greedySelect W (some ex) l = [] := by
  intro l
  induction l with
  | nil => intro ex _; rfl
  | cons sig rest ih =>
    intro ex hall
    have h1 : sig.time < ex := hall sig (List.mem_cons_self _ _)
    rw [greedySelect, if_pos h1]
    exact ih ex fun s hs => hall s (List.mem_cons_of_mem _ hs)

/-- C4: the mousemove capture path applies a per-event-type throttle gate:
its emissions are exactly those of the reference gate in which the first
signal of each window passes and every signal arriving before the window
elapses is dropped; consequently a burst of signals confined to one window
yields exactly one canonical event. -/
theorem throttle_window_gate :
    (∀ (opts : EventHandlerOptions) (excl : List String)
        (sigs : List MouseMoveSignal),
      (EventHandler.runMouseMoves opts ⟨excl, []⟩ sigs).2 =
        (greedySelect opts.throttleMouseMove none sigs).filterMap (emitOf excl)) ∧
    (∀ (opts : EventHandlerOptions) (excl : List String) (sig : MouseMoveSignal)
        (rest : List MouseMoveSignal),
      (∀ s ∈ rest, s.time < sig.time + opts.throttleMouseMove) →
      ∀ ev, emitOf excl sig = some ev →
      (EventHandler.runMouseMoves opts ⟨excl, []⟩ (sig :: rest)).2 = [ev]) := by
  constructor
  · intro opts excl sigs
    exact runMouseMoves_eq_greedy opts excl sigs none
  · intro opts excl sig rest hall ev hev
    have h := runMouseMoves_eq_greedy opts excl (sig :: rest) none
    simp only [timersOf] at h
    rw [h]
    rw [greedySelect, greedySelect_drop_all _ rest (sig.time + opts.throttleMouseMove) hall]
    simp [hev]

/-- Witness for `throttle_window_gate`: three signals at 0, 30 and 60 ms
inside a 100 ms window emit exactly the first canonical event. -/
theorem throttle_window_gate_witness :
    (EventHandler.runMouseMoves ⟨true, 100⟩ ⟨[], []⟩
      [⟨0, 1, 1, none⟩, ⟨30, 2, 2, none⟩, ⟨60, 3, 3, none⟩]).2 =
      [(EventType.mouseMove, ⟨1, 1, none⟩)] := by
  refine throttle_window_gate.2 ⟨true, 100⟩ [] ⟨0, 1, 1, none⟩
    [⟨30, 2, 2, none⟩, ⟨60, 3, 3, none⟩] ?_ (EventType.mouseMove, ⟨1, 1, none⟩) rfl
  intro s hs
  simp only [List.mem_cons, List.not_mem_nil, or_false] at hs
  rcases hs with h | h <;> subst h <;> decide

/-- C5: a keydown on a non-excluded password input records the redacted
placeholder key `*` with keyCode 0, and two such signals differing only in
the key pressed produce identical recorded payloads. -/
theorem password_keydown_redacted (c : EventCollector) (target : TargetElement)
    (e1 e2 : KeySignal)
    (htag : target.tagName = "INPUT")
    (htype : target.inputType = some "password")
    (hexcl : c.shouldExcludeElement target = false)
    (hmods : e1.ctrlKey = e2.ctrlKey ∧ e1.altKey = e2.altKey ∧
      e1.shiftKey = e2.shiftKey ∧ e1.metaKey = e2.metaKey) :
    EventHandler.handleKeyDown c target e1 =
      some (EventType.keyDown,
        { key := "*", keyCode := 0,
          modifiers := ⟨e1.ctrlKey, e1.altKey, e1.shiftKey, e1.metaKey⟩,
          target := some (EventCollector.getElementInfo target) }) ∧
    EventHandler.handleKeyDown c target e1 = EventHandler.handleKeyDown c target e2 := by
  obtain ⟨h1, h2, h3, h4⟩ := hmods
  constructor
  · rw [EventHandler.handleKeyDown, if_neg (by simp [hexcl]), if_pos ⟨htag, htype⟩]
  · rw [EventHandler.handleKeyDown, if_neg (by simp [hexcl]), if_pos ⟨htag, htype⟩,
      EventHandler.handleKeyDown, if_neg (by simp [hexcl]), if_pos ⟨htag, htype⟩,
      h1, h2, h3, h4]

/-- Witness for `password_keydown_redacted`: pressing `a` and pressing `b` on
a clean password input record the same redacted payload. -/
theorem password_keydown_redacted_witness :
    EventHandler.handleKeyDown ⟨[], []⟩
      ⟨"INPUT", some "password", "pw", "", "", [], []⟩ ⟨"a", 65, false, false, false, false⟩ =
      some (EventType.keyDown,
        { key := "*", keyCode := 0, modifiers := ⟨false, false, false, false⟩,
          target := some (EventCollector.getElementInfo
            ⟨"INPUT", some "password", "pw", "", "", [], []⟩) }) ∧
    EventHandler.handleKeyDown ⟨[], []⟩
      ⟨"INPUT", some "password", "pw", "", "", [], []⟩ ⟨"a", 65, false, false, false, false⟩ =
    EventHandler.handleKeyDown ⟨[], []⟩
      ⟨"INPUT", some "password", "pw", "", "", [], []⟩ ⟨"b", 66, false, false, false, false⟩ := by
  have h := password_keydown_redacted ⟨[], []⟩
    ⟨"INPUT", some "password", "pw", "", "", [], []⟩
    ⟨"a", 65, false, false, false, false⟩ ⟨"b", 66, false, false, false, false⟩
    rfl rfl rfl ⟨rfl, rfl, rfl, rfl⟩
  exact h

/-! ## Resource handling (ResourceHelper, StylesheetProcessor)

URLs are JavaScript strings; `String.prototype.startsWith` and
`String.prototype.includes` are modelled over the character list. -/

/-- Model of `url.startsWith(pattern)`. -/
def jsStartsWith (s pattern : String) : Bool :=
  pattern.toList.isPrefixOf s.toList

/-- Model of `url.includes(pattern)`: some suffix of `s` starts with
`pattern`. -/
def jsIncludes (s pattern : String) : Bool :=
  (List.range (s.toList.length + 1)).any fun i =>
    pattern.toList.isPrefixOf (s.toList.drop i)

/-- `ResourceHelper.isDataUrl`. -/
def isDataUrl (url : String) : Bool := jsStartsWith url "data:"

/-- `ResourceHelper.isResourceFromAllowedDomain`: data or relative URLs pass
unconditionally; otherwise an empty (or absent) allow-list rejects, and a
non-empty one accepts when some configured domain occurs anywhere in the
URL. -/
def isResourceFromAllowedDomain (allowedResourceDomains : List String)
    (url : String) : Bool :=
  if isDataUrl url || !jsStartsWith url "http" then true
  else if allowedResourceDomains.isEmpty then false
  else allowedResourceDomains.any fun domain => jsIncludes url domain

/-- C10: the allowed-domain test accepts every data: URL and every URL not
starting with "http" unconditionally, and accepts an "http" URL exactly when
the allow-list is non-empty and some configured domain occurs as a substring
anywhere in the URL — in particular a URL whose path merely contains an
allowed domain name is accepted. -/
theorem allowed_domain_substring_semantics :
    (∀ doms url, isDataUrl url = true ∨ jsStartsWith url "http" = false →
      isResourceFromAllowedDomain doms url = true) ∧
    (∀ doms url, jsStartsWith url "http" = true →
      (isResourceFromAllowedDomain doms url = true ↔
        doms ≠ [] ∧ ∃ d ∈ doms, jsIncludes url d = true)) ∧
    isResourceFromAllowedDomain ["example.com"]
      "http://evil.test/path/example.com" = true := by
  refine ⟨?_, ?_, by decide⟩
  · intro doms url h
    rcases h with h | h
    · simp [isResourceFromAllowedDomain, h]
    · simp [isResourceFromAllowedDomain, h]
  · intro doms url h
    have hdata : isDataUrl url = false := by
      rw [isDataUrl]
      rw [jsStartsWith] at h ⊢
      cases hl : url.toList with
      | nil => rw [hl] at h; simp [List.isPrefixOf] at h
      | cons c cs =>
        rw [hl] at h
        have hstr : ("http".toList : List Char) = ['h', 't', 't', 'p'] := rfl
        rw [hstr] at h
        simp only [List.isPrefixOf, Bool.and_eq_true, beq_iff_eq] at h
        have hc : c = 'h' := h.1.symm
        have hstr2 : ("data:".toList : List Char) = ['d', 'a', 't', 'a', ':'] := rfl
        rw [hstr2]
        subst hc
        simp [List.isPrefixOf]
    rw [isResourceFromAllowedDomain, hdata, h]
    simp only [Bool.not_true, Bool.or_self, Bool.false_eq_true, if_false]
    by_cases hempty : doms.isEmpty
    · rw [if_pos hempty]
      have : doms = [] := List.isEmpty_iff.mp hempty
      subst this
      simp
    · rw [if_neg hempty]
      have hne : doms ≠ [] := fun hc => hempty (by simp [hc])
      simp [List.any_eq_true, hne]

/-- Witness for `allowed_domain_substring_semantics`: a data: URL passes the
test with an empty allow-list. -/
theorem allowed_domain_substring_semantics_witness :
    isResourceFromAllowedDomain [] "data:image/png;base64,AAAA" = true :=
  allowed_domain_substring_semantics.1 [] "data:image/png;base64,AAAA"
    (Or.inl (by decide))

/-! ## Snapshot stylesheet pipeline (StylesheetProcessor, ResourceHelper) -/

/-- The snapshot options read by the stylesheet processor. -/
structure SnapshotOptions where
  inlineCss : Bool
  keepExternalResources : Bool
  allowedResourceDomains : List String
deriving DecidableEq, Repr

/-- `ResourceHelper.fetchResource`: any failure of the underlying fetch is
caught and converted into a CSS comment documenting the failure; the
function always returns a string, never a thrown error. -/
def fetchResource (fetch : String → Except String String) (url : String) : String :=
  match fetch url with
  | Except.ok content => content
  | Except.error errorMsg => "/* Erro ao buscar " ++ url ++ ": " ++ errorMsg ++ " */"

/-- A node of the cloned document relevant to stylesheet processing. -/
inductive DocNode
  | linkStylesheet (href : Option String)
  | style (content : String)
  | other (tag : String)
deriving DecidableEq, Repr

/-- The style text that replaces an inlined stylesheet link: the provenance
comment plus the fetched content (`replacePlaceholderWithContent`). -/
def inlinedStyleContent (fetch : String → Except String String) (href : String) :
    String :=
  "/* Inlined from " ++ href ++ " */\n" ++ fetchResource fetch href

/-- Per-node behaviour of `processStylesheets`: a stylesheet link with an
allowed href is inlined when `inlineCss` is on (via a placeholder that ends
as an inline style element); otherwise it is removed unless external
resources are kept; anything else is untouched. -/
def processStylesheetNode (fetch : String → Except String String)
    (opts : SnapshotOptions) : DocNode → List DocNode
  | DocNode.linkStylesheet none => [DocNode.linkStylesheet none]
  | DocNode.linkStylesheet (some href) =>
    if isResourceFromAllowedDomain opts.allowedResourceDomains href && opts.inlineCss then
      [DocNode.style (inlinedStyleContent fetch href)]
    else if !opts.keepExternalResources then []
    else [DocNode.linkStylesheet (some href)]
  | n => [n]

/-- `processStylesheets` over the document's stylesheet links (DOM order is
preserved; the fetches are joined with all-settle semantics). -/
def processStylesheets (fetch : String → Except String String)
    (opts : SnapshotOptions) (doc : List DocNode) : List DocNode :=
  (doc.map (processStylesheetNode fetch opts)).flatten

/-- Nodes other than the failing link are processed identically under two
fetch oracles that agree away from `u`. -/
lemma processStylesheetNode_congr (f g : String → Except String String)
    (opts : SnapshotOptions) (u : String)
    (hagree : ∀ v, v ≠ u → g v = f v) :
    ∀ n, n ≠ DocNode.linkStylesheet (some u) →
      processStylesheetNode f opts n = processStylesheetNode g opts n := by
  intro n hn
  cases n with
  | linkStylesheet href =>
    cases href with
    | none => rfl
    | some v =>
      have hv : v ≠ u := fun hc => hn (by rw [hc])
      simp only [processStylesheetNode, inlinedStyleContent, fetchResource,
        hagree v hv]
  | style content => rfl
  | other tag => rfl

/-- C6: when fetching one stylesheet fails, the snapshot still completes:
the failing link becomes an inline style whose text documents the failure
(the caught error, never rethrown), and every other node is processed exactly
as it would be under an oracle with no failure at that URL. -/
theorem stylesheet_fetch_failure_degrades_gracefully
    (f g : String → Except String String) (u msg : String) (opts : SnapshotOptions)
    (d1 d2 : List DocNode)
    (hf : f u = Except.error msg)
    (hagree : ∀ v, v ≠ u → g v = f v)
    (hd1 : DocNode.linkStylesheet (some u) ∉ d1)
    (hd2 : DocNode.linkStylesheet (some u) ∉ d2)
    (hallow : isResourceFromAllowedDomain opts.allowedResourceDomains u = true)
    (hinline : opts.inlineCss = true) :
    fetchResource f u = "/* Erro ao buscar " ++ u ++ ": " ++ msg ++ " */" ∧
    processStylesheets f opts (d1 ++ DocNode.linkStylesheet (some u) :: d2) =
      processStylesheets g opts d1 ++
        DocNode.style ("/* Inlined from " ++ u ++ " */\n" ++
          ("/* Erro ao buscar " ++ u ++ ": " ++ msg ++ " */")) ::
        processStylesheets g opts d2 := by
  have hfr : fetchResource f u = "/* Erro ao buscar " ++ u ++ ": " ++ msg ++ " */" := by
    rw [fetchResource, hf]
  refine ⟨hfr, ?_⟩
  have hnode : processStylesheetNode f opts (DocNode.linkStylesheet (some u)) =
      [DocNode.style ("/* Inlined from " ++ u ++ " */\n" ++
        ("/* Erro ao buscar " ++ u ++ ": " ++ msg ++ " */"))] := by
    rw [processStylesheetNode]
    rw [if_pos (by rw [hallow, hinline]; rfl)]
    rw [inlinedStyleContent, hfr]
  have hmap1 : d1.map (processStylesheetNode f opts) =
      d1.map (processStylesheetNode g opts) :=
    List.map_congr_left fun n hn =>
      processStylesheetNode_congr f g opts u hagree n fun hc => hd1 (hc ▸ hn)
  have hmap2 : d2.map (processStylesheetNode f opts) =
      d2.map (processStylesheetNode g opts) :=
    List.map_congr_left fun n hn =>
      processStylesheetNode_congr f g opts u hagree n fun hc => hd2 (hc ▸ hn)
  rw [processStylesheets, List.map_append, List.map_cons, hnode, hmap1, hmap2,
    List.flatten_append, List.flatten_cons]
  rw [processStylesheets, processStylesheets]
  simp

/-- Witness for `stylesheet_fetch_failure_degrades_gracefully`: a two-link
document whose second stylesheet fails to fetch still yields a document where
the first link is inlined and the second carries the failure comment. -/
theorem stylesheet_fetch_failure_witness :
    processStylesheets
      (fun url => if url = "b.css" then Except.error "HTTP 404"
        else Except.ok "body \x7b color: red \x7d")
      ⟨true, true, []⟩
      [DocNode.linkStylesheet (some "a.css"), DocNode.linkStylesheet (some "b.css")] =
      [DocNode.style ("/* Inlined from a.css */\n" ++ "body \x7b color: red \x7d"),
       DocNode.style ("/* Inlined from b.css */\n" ++
         ("/* Erro ao buscar b.css: HTTP 404 */"))] := by
  have h := stylesheet_fetch_failure_degrades_gracefully
    (fun url => if url = "b.css" then Except.error "HTTP 404"
      else Except.ok "body \x7b color: red \x7d")
    (fun url => if url = "b.css" then Except.ok "ignored"
      else Except.ok "body \x7b color: red \x7d")
    "b.css" "HTTP 404" ⟨true, true, []⟩
    [DocNode.linkStylesheet (some "a.css")] []
    (by simp) (by intro v hv; simp [hv]) (by simp) (by simp) (by decide) rfl
  have h2 := h.2
  simp only [List.singleton_append] at h2
  rw [h2]
  decide

/-! ## SessionPlayer duration computation (view player) -/

/-- `SessionPlayer.loadSession`'s duration computation: with both session
bounds present it computes `startTime - endTime`; otherwise it falls back to
the span between the first and last event, or 0. -/
def computeLoadedDuration (startTime endTime : Option Int)
    (events : List SessionEvent) : Int :=
  match startTime, endTime with
  | some st, some et => st - et
  | _, _ =>
    if 1 < events.length then
      ((events.getLast?.map fun e => e.timestamp).getD 0) -
        ((events.head?.map fun e => e.timestamp).getD 0)
    else 0

/-- C9: the player's duration computation subtracts in the reversed order,
so every session whose end is strictly later than its start gets a negative
duration instead of the positive elapsed time. -/
theorem loadSession_duration_reversed (st et : Int) (events : List SessionEvent)
    (h : st < et) :
    computeLoadedDuration (some st) (some et) events = st - et ∧
    computeLoadedDuration (some st) (some et) events < 0 ∧
    computeLoadedDuration (some st) (some et) events ≠ et - st := by
  refine ⟨rfl, ?_, ?_⟩ <;> simp [computeLoadedDuration] <;> omega

/-- Witness for `loadSession_duration_reversed`: a session from 1000 ms to
3500 ms gets duration −2500 ms. -/
theorem loadSession_duration_reversed_witness :
    computeLoadedDuration (some 1000) (some 3500) [] = 1000 - 3500 ∧
    computeLoadedDuration (some 1000) (some 3500) [] < 0 ∧
    computeLoadedDuration (some 1000) (some 3500) [] ≠ 3500 - 1000 :=
  loadSession_duration_reversed 1000 3500 [] (by norm_num)
